import Mathlib

/-!
A shallow embedding of vault.go, the in-memory secret broker.

The Go program keeps four maps behind one `sync.Mutex`.  Every method of
`*Vault` is embedded as a total function from the state before the call (and
the values the call reads from its environment: the clock readings returned by
`time.Now()` and the bytes written by `rand.Read`) to an `Outcome`: either the
call returns, with its Go result and the state after it, or the calling
goroutine parks forever inside `Mutex.Lock`.

Modelling choices

* `time.Time` is an integer count of nanoseconds on one time line and
  `time.Duration` an integer count of nanoseconds; `Time.Add` is addition and
  `Time.After` the strict order.
* `map[string]T` is a function `String → Option T`; `m[k] = x` is `mapSet` and
  the two-valued read `x, ok := m[k]` is `mapGet`, which yields the zero value
  of `T` when the key is absent.
* `sync.Mutex` is one boolean, `true` while the lock is held.  It is not
  reentrant: `Lock` on a held mutex does not return until somebody unlocks it,
  and the only `Unlock` calls of the program are the deferred ones of the
  goroutine that took the lock.
* the Go result `(string, error)` is a pair of a string and an optional error
  message (`none` is `nil`).
-/

/-! ## Time -/

/-- Instants (`time.Time`), in nanoseconds. -/
abbrev Time := Int

/-- Spans (`time.Duration`), in nanoseconds. -/
abbrev Duration := Int

/-- The constant `time.Hour`. -/
def Hour : Duration := 3600 * 1000000000

/-- The method `t.Add(d)`. -/
def Time.Add (t : Time) (d : Duration) : Time := t + d

/-- The method `t.After(u)`: whether `t` is strictly later than `u`. -/
def Time.After (t u : Time) : Bool := decide (u < t)

/-! ## Data model -/

/-- The struct `Secret`. -/
structure Secret where
  Value : String
  TTL : Duration
  CreatedAt : Time
  deriving DecidableEq, Inhabited

/-- The struct `User`. -/
structure User where
  Username : String
  Password : String
  deriving DecidableEq, Inhabited

/-- The struct `AppRole`. -/
structure AppRole where
  RoleID : String
  SecretID : String
  deriving DecidableEq, Inhabited

/-- The struct `Token`. -/
structure Token where
  Value : String
  ExpiresAt : Time
  deriving DecidableEq, Inhabited

/-- Go maps keyed by strings. -/
abbrev GoMap (T : Type) := String → Option T

/-- The result of `make(map[string]T)`. -/
def GoMap.empty {T : Type} : GoMap T := fun _ => none

/-- The assignment `m[k] = x`. -/
def mapSet {T : Type} (m : GoMap T) (k : String) (x : T) : GoMap T :=
  fun j => if j = k then some x else m j

/-- The read `x, exists := m[k]`: the zero value and `false` when `k` is absent. -/
def mapGet {T : Type} [Inhabited T] (m : GoMap T) (k : String) : T × Bool :=
  match m k with
  | some x => (x, true)
  | none => (default, false)

/-- The struct `Vault`; `Mutex` is `true` while the lock is held. -/
structure Vault where
  Secrets : GoMap Secret
  Users : GoMap User
  AppRoles : GoMap AppRole
  Tokens : GoMap Token
  Mutex : Bool

/-- The Go result pair `(string, error)`; the error is its message, `none` for `nil`. -/
abbrev Result := String × Option String

/-- How a call ends: it returns, or its goroutine is parked in `Lock` for ever. -/
inductive Outcome (α : Type) where
  | returned (result : α) (v : Vault)
  | blocked (v : Vault)

/-- The state a call leaves behind. -/
def Outcome.vault {α : Type} : Outcome α → Vault
  | .returned _ v => v
  | .blocked v => v

/-- What a call returned, if it returned. -/
def Outcome.result {α : Type} : Outcome α → Option α
  | .returned r _ => some r
  | .blocked _ => none

/-- Whether a call came back to its caller. -/
def Outcome.isReturned {α : Type} : Outcome α → Bool
  | .returned _ _ => true
  | .blocked _ => false

/-! ## The mutex -/

/-- The call `v.Mutex.Lock()`: `none` when the lock is held, and the caller waits. -/
def Vault.Lock (v : Vault) : Option Vault :=
  if v.Mutex then none else some { v with Mutex := true }

/-- The call `v.Mutex.Unlock()`, run by the holder of the lock. -/
def Vault.Unlock (v : Vault) : Vault := { v with Mutex := false }

/-! ## Token values -/

/-- The alphabet of `base64.URLEncoding`. -/
def encodeURL : List Char :=
  "ABCDEFGHIJKLMNOPQRSTUVWXYZabcdefghijklmnopqrstuvwxyz0123456789-_".toList

/-- The character of a six-bit group. -/
def encodeChar (i : Nat) : Char := encodeURL.getD (i % 64) 'A'

/-- The loop of `(*Encoding).Encode` with `StdPadding`: three bytes give four
characters, a tail of one or two bytes is padded with `=`. -/
def base64Encode : List Nat → List Char
  | [] => []
  | [b0] =>
    let val := b0 * 65536
    [encodeChar (val / 262144), encodeChar (val / 4096), '=', '=']
  | [b0, b1] =>
    let val := b0 * 65536 + b1 * 256
    [encodeChar (val / 262144), encodeChar (val / 4096), encodeChar (val / 64), '=']
  | b0 :: b1 :: b2 :: rest =>
    let val := b0 * 65536 + b1 * 256 + b2
    encodeChar (val / 262144) :: encodeChar (val / 4096) :: encodeChar (val / 64) ::
      encodeChar val :: base64Encode rest

/-- The call `base64.URLEncoding.EncodeToString(b)`. -/
def EncodeToString (b : List Nat) : String := String.mk (base64Encode b)

/-- The function `generateRandomString(n)`: `b` starts as `n` zero bytes and
`rand.Read(b)` overwrites it with the bytes `rnd` of the random source. -/
def generateRandomString (n : Nat) (rnd : List Nat) : String :=
  let b := (List.range n).map (fun i => rnd.getD i 0 % 256)
  EncodeToString b

/-! ## The operations -/

/-- Message of the error of `GetTokenByAppRole`. -/
def errInvalidCredentials : String := "invalid roleID or secretID"

/-- Message of the first error of `GetSecretByToken`. -/
def errInvalidToken : String := "invalid or expired token"

/-- Message of the second error of `GetSecretByToken`. -/
def errSecretUnavailable : String := "secret not found or expired"

/-- The function `NewVault()`. -/
def NewVault : Vault :=
  { Secrets := GoMap.empty, Users := GoMap.empty, AppRoles := GoMap.empty,
    Tokens := GoMap.empty, Mutex := false }

/-- The method `CreateRoot`; `now` is the reading of `time.Now()`. -/
def Vault.CreateRoot (v : Vault) (name secretValue : String) (ttl : Duration) (now : Time) :
    Outcome Unit :=
  match v.Lock with
  | none => .blocked v
  | some v1 =>
    let v2 := { v1 with
      Secrets := mapSet v1.Secrets name { Value := secretValue, TTL := ttl, CreatedAt := now } }
    .returned () v2.Unlock

/-- The method `CreateUser`. -/
def Vault.CreateUser (v : Vault) (username password : String) : Outcome Unit :=
  match v.Lock with
  | none => .blocked v
  | some v1 =>
    let v2 := { v1 with
      Users := mapSet v1.Users username { Username := username, Password := password } }
    .returned () v2.Unlock

/-- The method `CreateAppRole`. -/
def Vault.CreateAppRole (v : Vault) (roleID secretID : String) : Outcome Unit :=
  match v.Lock with
  | none => .blocked v
  | some v1 =>
    let v2 := { v1 with
      AppRoles := mapSet v1.AppRoles roleID { RoleID := roleID, SecretID := secretID } }
    .returned () v2.Unlock

/-- The method `GenerateToken`; `rnd` are the bytes of the random source and
`now` the reading of `time.Now()`. -/
def Vault.GenerateToken (v : Vault) (rnd : List Nat) (now : Time) : Outcome Result :=
  match v.Lock with
  | none => .blocked v
  | some v1 =>
    let tokenValue := generateRandomString 32 rnd
    let v2 := { v1 with
      Tokens := mapSet v1.Tokens tokenValue
        { Value := tokenValue, ExpiresAt := now.Add (24 * Hour) } }
    .returned (tokenValue, none) v2.Unlock

/-- The method `GetTokenByAppRole`.  The nested `v.GenerateToken()` runs while
this call holds the lock; the deferred `Unlock` runs only once it has returned. -/
def Vault.GetTokenByAppRole (v : Vault) (roleID secretID : String) (rnd : List Nat)
    (now : Time) : Outcome Result :=
  match v.Lock with
  | none => .blocked v
  | some v1 =>
    let (appRole, «exists») := mapGet v1.AppRoles roleID
    if !«exists» || appRole.SecretID != secretID then
      .returned ("", some errInvalidCredentials) v1.Unlock
    else
      match v1.GenerateToken rnd now with
      | .blocked v2 => .blocked v2
      | .returned r v2 => .returned r v2.Unlock

/-- The method `GetSecretByToken`; `now1` and `now2` are the readings of its
first and second `time.Now()`. -/
def Vault.GetSecretByToken (v : Vault) (token rootName : String) (now1 now2 : Time) :
    Outcome Result :=
  match v.Lock with
  | none => .blocked v
  | some v1 =>
    let (tok, «exists») := mapGet v1.Tokens token
    if !«exists» || now1.After tok.ExpiresAt then
      .returned ("", some errInvalidToken) v1.Unlock
    else
      let (secret, «exists») := mapGet v1.Secrets rootName
      if !«exists» || now2.After (secret.CreatedAt.Add secret.TTL) then
        .returned ("", some errSecretUnavailable) v1.Unlock
      else
        .returned (secret.Value, none) v1.Unlock

/-! ## Sequences of calls -/

/-- One call of a public method, with the values it reads from its environment. -/
inductive Op where
  | createRoot (name secretValue : String) (ttl : Duration) (now : Time)
  | createUser (username password : String)
  | createAppRole (roleID secretID : String)
  | generateToken (rnd : List Nat) (now : Time)
  | getTokenByAppRole (roleID secretID : String) (rnd : List Nat) (now : Time)
  | getSecretByToken (token rootName : String) (now1 now2 : Time)

/-- The state after one call, and whether the call returned. -/
def Vault.step (v : Vault) : Op → Outcome Unit
  | .createRoot name secretValue ttl now => v.CreateRoot name secretValue ttl now
  | .createUser username password => v.CreateUser username password
  | .createAppRole roleID secretID => v.CreateAppRole roleID secretID
  | .generateToken rnd now =>
    match v.GenerateToken rnd now with
    | .returned _ w => .returned () w
    | .blocked w => .blocked w
  | .getTokenByAppRole roleID secretID rnd now =>
    match v.GetTokenByAppRole roleID secretID rnd now with
    | .returned _ w => .returned () w
    | .blocked w => .blocked w
  | .getSecretByToken token rootName now1 now2 =>
    match v.GetSecretByToken token rootName now1 now2 with
    | .returned _ w => .returned () w
    | .blocked w => .blocked w

/-- Calls made one after the other by one caller; a call that never returns is the last. -/
def Vault.run (v : Vault) : List Op → Outcome Unit
  | [] => .returned () v
  | op :: ops =>
    match v.step op with
    | .returned _ w => w.run ops
    | .blocked w => .blocked w

/-! ## The scenario of the specification -/

/-- Thirty-two bytes of the random source. -/
def draw1 : List Nat := List.range 32

/-- Another thirty-two bytes of the random source. -/
def draw2 : List Nat := (List.range 32).map (fun i => 255 - i)

/-- The state after `CreateRoot("db", "s3cr3t", 1h)` at time 0 and
`CreateAppRole("role1", "secretA")`, from `NewVault()`. -/
def scenarioVault : Vault :=
  (NewVault.run [.createRoot "db" "s3cr3t" Hour 0, .createAppRole "role1" "secretA"]).vault

/-- The scenario, followed by a direct `GenerateToken()` at time 0. -/
def issuedVault : Vault := (scenarioVault.GenerateToken draw1 0).vault

/-- The token value of `issuedVault`. -/
def issuedToken : String := generateRandomString 32 draw1

/-- A state with secrets of several lifetimes, all created at time 0, a user,
a role, and two tokens issued by direct `GenerateToken()` calls at times 0 and 1h. -/
def stockedVault : Vault :=
  (NewVault.run [.createRoot "db" "s3cr3t" Hour 0, .createRoot "long" "l0ng" (48 * Hour) 0,
    .createRoot "zero" "z3r0" 0 0, .createRoot "neg" "n3g" (-Hour) 0,
    .createUser "alice" "pw", .createAppRole "role1" "secretA",
    .generateToken draw1 0, .generateToken draw2 Hour]).vault

/-! ## Vocabulary for token values -/

/-- Whether a character is one of `A`-`Z`, `a`-`z`, `0`-`9`, `-` and `_`. -/
def isURLSafeChar (c : Char) : Bool :=
  ('A' ≤ c && c ≤ 'Z') || ('a' ≤ c && c ≤ 'z') || ('0' ≤ c && c ≤ '9') || c == '-' || c == '_'

/-- The six-bit group that a character of the alphabet stands for: its index in
`encodeURL`. -/
def decodeChar (c : Char) : Nat := encodeURL.indexOf c

/-- The bytes that `generateRandomString(n)` encodes. -/
def randomBytes (n : Nat) (rnd : List Nat) : List Nat :=
  (List.range n).map (fun i => rnd.getD i 0 % 256)

/-! ## Lemmas on the lock and the maps -/

theorem Vault.Lock_free (v : Vault) (h : v.Mutex = false) :
    v.Lock = some { v with Mutex := true } := by
  simp [Vault.Lock, h]

theorem Vault.Lock_held (v : Vault) (h : v.Mutex = true) : v.Lock = none := by
  simp [Vault.Lock, h]

theorem Vault.Unlock_locked (v : Vault) (h : v.Mutex = false) :
    ({ v with Mutex := true } : Vault).Unlock = v := by
  cases v
  simp_all [Vault.Unlock]

theorem mapSet_same {T : Type} (m : GoMap T) (k : String) (x : T) : mapSet m k x k = some x := by
  simp [mapSet]

theorem mapSet_other {T : Type} (m : GoMap T) (k j : String) (x : T) (h : j ≠ k) :
    mapSet m k x j = m j := by
  simp [mapSet, h]

theorem errSecretUnavailable_ne_errInvalidToken : errSecretUnavailable ≠ errInvalidToken := by
  decide

/-! ## What each call does when it finds the lock free -/

theorem Vault.CreateRoot_free (v : Vault) (name secretValue : String) (ttl : Duration)
    (now : Time) (h : v.Mutex = false) :
    v.CreateRoot name secretValue ttl now = .returned ()
      { v with
        Secrets := mapSet v.Secrets name
                    { Value := secretValue, TTL := ttl, CreatedAt := now } } := by
  cases v
  simp_all [Vault.CreateRoot, Vault.Lock, Vault.Unlock]

theorem Vault.CreateUser_free (v : Vault) (username password : String) (h : v.Mutex = false) :
    v.CreateUser username password = .returned ()
      { v with
        Users := mapSet v.Users username { Username := username, Password := password } } := by
  cases v
  simp_all [Vault.CreateUser, Vault.Lock, Vault.Unlock]

theorem Vault.CreateAppRole_free (v : Vault) (roleID secretID : String) (h : v.Mutex = false) :
    v.CreateAppRole roleID secretID = .returned ()
      { v with
        AppRoles := mapSet v.AppRoles roleID { RoleID := roleID, SecretID := secretID } } := by
  cases v
  simp_all [Vault.CreateAppRole, Vault.Lock, Vault.Unlock]

theorem Vault.GenerateToken_free (v : Vault) (rnd : List Nat) (now : Time)
    (h : v.Mutex = false) :
    v.GenerateToken rnd now = .returned (generateRandomString 32 rnd, none)
      { v with
        Tokens := mapSet v.Tokens (generateRandomString 32 rnd)
                    { Value := generateRandomString 32 rnd, ExpiresAt := now + 24 * Hour } } := by
  cases v
  simp_all [Vault.GenerateToken, Vault.Lock, Vault.Unlock, Time.Add]

theorem Vault.GenerateToken_held (v : Vault) (rnd : List Nat) (now : Time)
    (h : v.Mutex = true) : v.GenerateToken rnd now = .blocked v := by
  simp [Vault.GenerateToken, Vault.Lock, h]

theorem Vault.GetTokenByAppRole_mismatch (v : Vault) (roleID secretID : String)
    (rnd : List Nat) (now : Time) (h : v.Mutex = false)
    (hno : ∀ r, v.AppRoles roleID = some r → r.SecretID ≠ secretID) :
    v.GetTokenByAppRole roleID secretID rnd now =
      .returned ("", some errInvalidCredentials) v := by
  cases v with
  | mk S U A T M =>
    simp only at h hno
    subst h
    cases hA : A roleID with
    | none => simp [Vault.GetTokenByAppRole, Vault.Lock, Vault.Unlock, mapGet, hA]
    | some r =>
      have := hno r hA
      simp [Vault.GetTokenByAppRole, Vault.Lock, Vault.Unlock, mapGet, hA, this]

theorem Vault.GetTokenByAppRole_match (v : Vault) (roleID secretID : String)
    (rnd : List Nat) (now : Time) (h : v.Mutex = false) (r : AppRole)
    (hr : v.AppRoles roleID = some r) (hs : r.SecretID = secretID) :
    v.GetTokenByAppRole roleID secretID rnd now = .blocked { v with Mutex := true } := by
  cases v with
  | mk S U A T M =>
    simp only at h hr
    subst h
    simp [Vault.GetTokenByAppRole, Vault.GenerateToken, Vault.Lock, mapGet, hr, hs]

theorem Vault.GetSecretByToken_noToken (v : Vault) (token rootName : String)
    (now1 now2 : Time) (h : v.Mutex = false)
    (hno : ∀ tok, v.Tokens token = some tok → tok.ExpiresAt < now1) :
    v.GetSecretByToken token rootName now1 now2 =
      .returned ("", some errInvalidToken) v := by
  cases v with
  | mk S U A T M =>
    simp only at h hno
    subst h
    cases hT : T token with
    | none => simp [Vault.GetSecretByToken, Vault.Lock, Vault.Unlock, mapGet, hT]
    | some tok =>
      have := hno tok hT
      simp [Vault.GetSecretByToken, Vault.Lock, Vault.Unlock, mapGet, hT, Time.After, this]

theorem Vault.GetSecretByToken_noSecret (v : Vault) (token rootName : String)
    (now1 now2 : Time) (h : v.Mutex = false) (tok : Token)
    (ht : v.Tokens token = some tok) (hlive : now1 ≤ tok.ExpiresAt)
    (hno : ∀ s, v.Secrets rootName = some s → s.CreatedAt + s.TTL < now2) :
    v.GetSecretByToken token rootName now1 now2 =
      .returned ("", some errSecretUnavailable) v := by
  cases v with
  | mk S U A T M =>
    simp only at h hno ht
    subst h
    have hl : ¬ tok.ExpiresAt < now1 := not_lt.mpr hlive
    cases hS : S rootName with
    | none =>
      simp [Vault.GetSecretByToken, Vault.Lock, Vault.Unlock, mapGet, ht, hS, Time.After, hl]
    | some s =>
      have := hno s hS
      simp [Vault.GetSecretByToken, Vault.Lock, Vault.Unlock, mapGet, ht, hS, Time.After,
        Time.Add, hl, this]

theorem Vault.GetSecretByToken_live (v : Vault) (token rootName : String)
    (now1 now2 : Time) (h : v.Mutex = false) (tok : Token) (s : Secret)
    (ht : v.Tokens token = some tok) (hlive : now1 ≤ tok.ExpiresAt)
    (hs : v.Secrets rootName = some s) (hslive : now2 ≤ s.CreatedAt + s.TTL) :
    v.GetSecretByToken token rootName now1 now2 = .returned (s.Value, none) v := by
  cases v with
  | mk S U A T M =>
    simp only at h hs ht
    subst h
    have hl : ¬ tok.ExpiresAt < now1 := not_lt.mpr hlive
    have hl2 : ¬ s.CreatedAt + s.TTL < now2 := not_lt.mpr hslive
    simp [Vault.GetSecretByToken, Vault.Lock, Vault.Unlock, mapGet, ht, hs, Time.After,
      Time.Add, hl, hl2]

theorem Vault.CreateRoot_returned (v0 v1 : Vault) (name secretValue : String)
    (ttl : Duration) (now : Time)
    (h : v0.CreateRoot name secretValue ttl now = .returned () v1) :
    v1.Secrets name = some { Value := secretValue, TTL := ttl, CreatedAt := now } := by
  cases hM : v0.Mutex with
  | true => simp [Vault.CreateRoot, Vault.Lock, hM] at h
  | false =>
    rw [Vault.CreateRoot_free v0 name secretValue ttl now hM] at h
    injection h with _ hv
    rw [← hv]
    exact mapSet_same _ _ _

theorem Vault.GetSecretByToken_accepted (v : Vault) (token rootName : String)
    (now1 now2 : Time) (h : v.Mutex = false) (tok : Token)
    (ht : v.Tokens token = some tok) (hlive : now1 ≤ tok.ExpiresAt) :
    v.GetSecretByToken token rootName now1 now2 =
        .returned ("", some errSecretUnavailable) v ∨
      ∃ s : Secret,
        v.GetSecretByToken token rootName now1 now2 = .returned (s.Value, none) v := by
  by_cases hs : ∀ s, v.Secrets rootName = some s → s.CreatedAt + s.TTL < now2
  · exact Or.inl (Vault.GetSecretByToken_noSecret v token rootName now1 now2 h tok ht hlive hs)
  · push_neg at hs
    obtain ⟨s, hs1, hs2⟩ := hs
    exact Or.inr ⟨s, Vault.GetSecretByToken_live v token rootName now1 now2 h tok s ht hlive
      hs1 hs2⟩

theorem Vault.GetSecretByToken_accepted_iff (v : Vault) (token rootName : String)
    (now1 now2 : Time) (h : v.Mutex = false) :
    (v.GetSecretByToken token rootName now1 now2).result ≠ some ("", some errInvalidToken) ↔
      ∃ tok, v.Tokens token = some tok ∧ now1 ≤ tok.ExpiresAt := by
  constructor
  · intro hne
    by_contra hno
    push_neg at hno
    exact hne (by
      rw [Vault.GetSecretByToken_noToken v token rootName now1 now2 h hno]
      rfl)
  · rintro ⟨tok, ht, hlive⟩
    rcases Vault.GetSecretByToken_accepted v token rootName now1 now2 h tok ht hlive with
      hr | ⟨s, hr⟩
    · rw [hr]
      simp [Outcome.result, errSecretUnavailable_ne_errInvalidToken]
    · rw [hr]
      simp [Outcome.result]

theorem Vault.GetTokenByAppRole_held (v : Vault) (roleID secretID : String)
    (rnd : List Nat) (now : Time) (h : v.Mutex = true) :
    v.GetTokenByAppRole roleID secretID rnd now = .blocked v := by
  simp [Vault.GetTokenByAppRole, Vault.Lock, h]

theorem Vault.GetSecretByToken_held (v : Vault) (token rootName : String)
    (now1 now2 : Time) (h : v.Mutex = true) :
    v.GetSecretByToken token rootName now1 now2 = .blocked v := by
  simp [Vault.GetSecretByToken, Vault.Lock, h]

/-! ## The claims -/

/-- C1: a `GetSecretByToken` call that finds the lock free has three outcomes.
It returns the empty string and the invalid-token error when the token has no
entry or its entry is expired at the first clock reading (`now1` after
`ExpiresAt`); otherwise the empty string and the secret-unavailable error when
the name has no entry or its entry is expired at the second clock reading
(`now2` after `CreatedAt + TTL`); otherwise exactly the stored `Value` and no
error.  The result is the same in any two states that agree on the token entry
and the secret entry: no role takes part in it. -/
theorem C1_GetSecretByToken_three_outcomes (v : Vault) (token rootName : String)
    (now1 now2 : Time) (hfree : v.Mutex = false) :
    ((v.Tokens token = none ∨ ∃ tok, v.Tokens token = some tok ∧ tok.ExpiresAt < now1) →
      v.GetSecretByToken token rootName now1 now2 =
        .returned ("", some errInvalidToken) v) ∧
    ((∃ tok, v.Tokens token = some tok ∧ now1 ≤ tok.ExpiresAt) →
      (v.Secrets rootName = none ∨
        ∃ s, v.Secrets rootName = some s ∧ s.CreatedAt + s.TTL < now2) →
      v.GetSecretByToken token rootName now1 now2 =
        .returned ("", some errSecretUnavailable) v) ∧
    (∀ tok s, v.Tokens token = some tok → now1 ≤ tok.ExpiresAt →
      v.Secrets rootName = some s → now2 ≤ s.CreatedAt + s.TTL →
      v.GetSecretByToken token rootName now1 now2 = .returned (s.Value, none) v) ∧
    (∀ w : Vault, w.Mutex = false → w.Tokens token = v.Tokens token →
      w.Secrets rootName = v.Secrets rootName →
      (w.GetSecretByToken token rootName now1 now2).result =
        (v.GetSecretByToken token rootName now1 now2).result) := by
  refine ⟨?_, ?_, ?_, ?_⟩
  · intro h
    apply Vault.GetSecretByToken_noToken v token rootName now1 now2 hfree
    intro tok ht
    rcases h with h | ⟨tok2, h2, hexp⟩
    · rw [h] at ht
      cases ht
    · rw [h2] at ht
      cases ht
      exact hexp
  · rintro ⟨tok, ht, hlive⟩ hs
    apply Vault.GetSecretByToken_noSecret v token rootName now1 now2 hfree tok ht hlive
    intro s hs1
    rcases hs with hs | ⟨s2, hs2, hexp⟩
    · rw [hs] at hs1
      cases hs1
    · rw [hs2] at hs1
      cases hs1
      exact hexp
  · intro tok s ht hlive hs hslive
    exact Vault.GetSecretByToken_live v token rootName now1 now2 hfree tok s ht hlive hs hslive
  · intro w hw hT hS
    by_cases hno : ∀ tok, v.Tokens token = some tok → tok.ExpiresAt < now1
    · rw [Vault.GetSecretByToken_noToken v token rootName now1 now2 hfree hno,
        Vault.GetSecretByToken_noToken w token rootName now1 now2 hw (by rwa [hT])]
      rfl
    · push_neg at hno
      obtain ⟨tok, ht, hlive⟩ := hno
      by_cases hs : ∀ s, v.Secrets rootName = some s → s.CreatedAt + s.TTL < now2
      · rw [Vault.GetSecretByToken_noSecret v token rootName now1 now2 hfree tok ht hlive hs,
          Vault.GetSecretByToken_noSecret w token rootName now1 now2 hw tok (by rwa [hT])
            hlive (by rwa [hS])]
        rfl
      · push_neg at hs
        obtain ⟨s, hs1, hs2⟩ := hs
        rw [Vault.GetSecretByToken_live v token rootName now1 now2 hfree tok s ht hlive hs1 hs2,
          Vault.GetSecretByToken_live w token rootName now1 now2 hw tok s (by rwa [hT]) hlive
            (by rwa [hS]) hs2]
        rfl

/-- C1, at the state of the scenario with a token issued at time 0: a read of
`db` five nanoseconds later returns its value. -/
theorem C1_witness :
    issuedVault.GetSecretByToken issuedToken "db" 5 5 =
      .returned ("s3cr3t", none) issuedVault :=
  (C1_GetSecretByToken_three_outcomes issuedVault issuedToken "db" 5 5 rfl).2.2.1
    { Value := issuedToken, ExpiresAt := 24 * Hour }
    { Value := "s3cr3t", TTL := Hour, CreatedAt := 0 } rfl (by decide) rfl (by decide)

theorem Vault.GetSecretByToken_free (v : Vault) (token rootName : String)
    (now1 now2 : Time) (h : v.Mutex = false) :
    ∃ r : Result, v.GetSecretByToken token rootName now1 now2 = .returned r v := by
  by_cases hno : ∀ tok, v.Tokens token = some tok → tok.ExpiresAt < now1
  · exact ⟨_, Vault.GetSecretByToken_noToken v token rootName now1 now2 h hno⟩
  · push_neg at hno
    obtain ⟨tok, ht, hlive⟩ := hno
    rcases Vault.GetSecretByToken_accepted v token rootName now1 now2 h tok ht hlive with
      hr | ⟨s, hr⟩
    · exact ⟨_, hr⟩
    · exact ⟨_, hr⟩

/-- Every call that finds the lock free returns and leaves the lock free, except
`GetTokenByAppRole` with credentials that match a registered role. -/
theorem Vault.step_free (v : Vault) (op : Op) (h : v.Mutex = false)
    (hop : ∀ roleID secretID rnd now, op = .getTokenByAppRole roleID secretID rnd now →
      ∀ r, v.AppRoles roleID = some r → r.SecretID ≠ secretID) :
    ∃ w, v.step op = .returned () w ∧ w.Mutex = false := by
  cases op with
  | createRoot name secretValue ttl now =>
    exact ⟨_, Vault.CreateRoot_free v name secretValue ttl now h, h⟩
  | createUser username password =>
    exact ⟨_, Vault.CreateUser_free v username password h, h⟩
  | createAppRole roleID secretID =>
    exact ⟨_, Vault.CreateAppRole_free v roleID secretID h, h⟩
  | generateToken rnd now =>
    simp only [Vault.step, Vault.GenerateToken_free v rnd now h]
    exact ⟨_, rfl, h⟩
  | getTokenByAppRole roleID secretID rnd now =>
    refine ⟨v, ?_, h⟩
    simp only [Vault.step,
      Vault.GetTokenByAppRole_mismatch v roleID secretID rnd now h
        (hop roleID secretID rnd now rfl)]
  | getSecretByToken token rootName now1 now2 =>
    obtain ⟨r, hr⟩ := Vault.GetSecretByToken_free v token rootName now1 now2 h
    refine ⟨v, ?_, h⟩
    simp only [Vault.step, hr]

/-- Once the lock is held and its holder is parked, no later call returns. -/
theorem Vault.step_held (v : Vault) (op : Op) (h : v.Mutex = true) :
    v.step op = .blocked v := by
  cases op <;>
    simp [Vault.step, Vault.CreateRoot, Vault.CreateUser, Vault.CreateAppRole,
      Vault.GenerateToken, Vault.GetTokenByAppRole, Vault.GetSecretByToken, Vault.Lock, h]

/-- C2, at the failing input: in the state reached from `NewVault()` by
`CreateRoot("db", "s3cr3t", 1h)` and `CreateAppRole("role1", "secretA")` the lock
is free and `role1` is registered with `secretA`, yet
`GetTokenByAppRole("role1", "secretA")` does not return a token: it never
returns. -/
theorem C2_registered_credentials_get_no_token :
    scenarioVault.Mutex = false ∧
    scenarioVault.AppRoles "role1" = some { RoleID := "role1", SecretID := "secretA" } ∧
    (scenarioVault.GetTokenByAppRole "role1" "secretA" draw1 0).result = none := by
  decide

/-- C3, at the failing input: `GetTokenByAppRole("role1", "secretA")`, started
with the lock free in the state of the scenario, takes the lock and calls
`GenerateToken`, whose own `Lock` finds the lock held; the call does not
return, the lock stays held, and a `GetSecretByToken` made afterwards does not
return either. -/
theorem C3_GetTokenByAppRole_blocks_on_its_own_lock :
    scenarioVault.Mutex = false ∧
    (scenarioVault.GetTokenByAppRole "role1" "secretA" draw1 0).isReturned = false ∧
    (scenarioVault.GetTokenByAppRole "role1" "secretA" draw1 0).vault.Mutex = true ∧
    ((scenarioVault.GetTokenByAppRole "role1" "secretA" draw1 0).vault.GetSecretByToken
      issuedToken "db" 1 1).isReturned = false := by
  decide

/-- C4, counterexample: the secret `db` was created at time 0 with a TTL of one
hour; read with a valid token at time 0 + 1h exactly, `GetSecretByToken` returns
its value and not the secret-unavailable error. -/
theorem C4_counterexample_read_at_expiry_instant :
    issuedVault.Secrets "db" = some { Value := "s3cr3t", TTL := Hour, CreatedAt := 0 } ∧
    (issuedVault.GetSecretByToken issuedToken "db" (0 + Hour) (0 + Hour)).result =
      some ("s3cr3t", none) ∧
    (issuedVault.GetSecretByToken issuedToken "db" (0 + Hour) (0 + Hour)).result ≠
      some ("", some errSecretUnavailable) := by
  decide

/-- C4, amended: for a secret created by `CreateRoot` at `createdAt` with TTL
`t > 0` and not overwritten since, and a valid token, `GetSecretByToken` returns
the value when its clock reading is at most `createdAt + t`, the instant
`createdAt + t` included, and fails with the secret-unavailable error when the
reading is later than `createdAt + t`. -/
theorem C4_secret_live_up_to_expiry_instant (v0 v1 v : Vault) (name value token : String)
    (t : Duration) (createdAt now1 now2 : Time) (tok : Token) (_ht : 0 < t)
    (hcreate : v0.CreateRoot name value t createdAt = .returned () v1)
    (hkept : v.Secrets name = v1.Secrets name) (hfree : v.Mutex = false)
    (htok : v.Tokens token = some tok) (hvalid : now1 ≤ tok.ExpiresAt) :
    (now2 ≤ createdAt + t →
      v.GetSecretByToken token name now1 now2 = .returned (value, none) v) ∧
    (createdAt + t < now2 →
      v.GetSecretByToken token name now1 now2 =
        .returned ("", some errSecretUnavailable) v) := by
  have hs : v.Secrets name = some { Value := value, TTL := t, CreatedAt := createdAt } := by
    rw [hkept]
    exact Vault.CreateRoot_returned v0 v1 name value t createdAt hcreate
  constructor
  · intro hle
    exact Vault.GetSecretByToken_live v token name now1 now2 hfree tok _ htok hvalid hs hle
  · intro hlt
    apply Vault.GetSecretByToken_noSecret v token name now1 now2 hfree tok htok hvalid
    intro s hs2
    rw [hs] at hs2
    cases hs2
    exact hlt

/-- C4 amended, at the scenario: `db` created at 0 for one hour is returned at
time 1h and refused one nanosecond later. -/
theorem C4_witness :
    issuedVault.GetSecretByToken issuedToken "db" Hour Hour =
        .returned ("s3cr3t", none) issuedVault ∧
    issuedVault.GetSecretByToken issuedToken "db" (Hour + 1) (Hour + 1) =
        .returned ("", some errSecretUnavailable) issuedVault :=
  ⟨(C4_secret_live_up_to_expiry_instant NewVault
      (NewVault.CreateRoot "db" "s3cr3t" Hour 0).vault issuedVault "db" "s3cr3t" issuedToken
      Hour 0 Hour Hour { Value := issuedToken, ExpiresAt := 24 * Hour } (by decide) rfl rfl rfl
      rfl (by decide)).1 (by decide),
   (C4_secret_live_up_to_expiry_instant NewVault
      (NewVault.CreateRoot "db" "s3cr3t" Hour 0).vault issuedVault "db" "s3cr3t" issuedToken
      Hour 0 (Hour + 1) (Hour + 1) { Value := issuedToken, ExpiresAt := 24 * Hour }
      (by decide) rfl rfl rfl rfl (by decide)).2 (by decide)⟩

/-- C5, counterexample: the token of `stockedVault` issued at time 0 has
`ExpiresAt` = 24h; presented at time 24h exactly it is accepted, and the read of
the secret `long` returns its value rather than the invalid-token error. -/
theorem C5_counterexample_token_accepted_at_expiry_instant :
    stockedVault.Tokens issuedToken = some { Value := issuedToken, ExpiresAt := 24 * Hour } ∧
    (stockedVault.GetSecretByToken issuedToken "long" (24 * Hour) (24 * Hour)).result =
      some ("l0ng", none) ∧
    (stockedVault.GetSecretByToken issuedToken "long" (24 * Hour) (24 * Hour)).result ≠
      some ("", some errInvalidToken) := by
  decide

/-- C5, amended: a `GetSecretByToken` call does not fail with the invalid-token
error if and only if the token store has an entry for the string and the clock
reading is at most its `ExpiresAt`, the instant `ExpiresAt` included; at every
later reading the call fails with the invalid-token error. -/
theorem C5_token_accepted_iff_not_after_expiry (v : Vault) (token rootName : String)
    (now1 now2 : Time) (hfree : v.Mutex = false) :
    ((v.GetSecretByToken token rootName now1 now2).result ≠
        some ("", some errInvalidToken) ↔
      ∃ tok, v.Tokens token = some tok ∧ now1 ≤ tok.ExpiresAt) ∧
    (∀ tok, v.Tokens token = some tok → tok.ExpiresAt < now1 →
      v.GetSecretByToken token rootName now1 now2 =
        .returned ("", some errInvalidToken) v) := by
  refine ⟨Vault.GetSecretByToken_accepted_iff v token rootName now1 now2 hfree, ?_⟩
  intro tok ht hexp
  apply Vault.GetSecretByToken_noToken v token rootName now1 now2 hfree
  intro tok2 ht2
  rw [ht] at ht2
  cases ht2
  exact hexp

/-- C5 amended, at `stockedVault`: the token issued at 0 is refused one
nanosecond after 24h. -/
theorem C5_witness :
    stockedVault.GetSecretByToken issuedToken "long" (24 * Hour + 1) (24 * Hour + 1) =
      .returned ("", some errInvalidToken) stockedVault :=
  (C5_token_accepted_iff_not_after_expiry stockedVault issuedToken "long" (24 * Hour + 1)
    (24 * Hour + 1) rfl).2 { Value := issuedToken, ExpiresAt := 24 * Hour } rfl (by decide)

/-- C6, at the failing input and in general: no `GetTokenByAppRole` call
returns a token.  Whatever the state and the arguments, the call either does
not return or returns the empty string with the invalid-credentials error; with
the registered pair of the scenario at time 0 it does not return, and the token
store holds no entry for the generated value, so nothing was stored with
`ExpiresAt` = 0 + 24h. -/
theorem C6_GetTokenByAppRole_never_returns_a_token :
    (∀ (v : Vault) (roleID secretID : String) (rnd : List Nat) (t0 : Time),
      (v.GetTokenByAppRole roleID secretID rnd t0).result = none ∨
      (v.GetTokenByAppRole roleID secretID rnd t0).result =
        some ("", some errInvalidCredentials)) ∧
    (scenarioVault.GetTokenByAppRole "role1" "secretA" draw1 0).result = none ∧
    (scenarioVault.GetTokenByAppRole "role1" "secretA" draw1 0).vault.Tokens
      (generateRandomString 32 draw1) = none := by
  refine ⟨?_, by decide, by decide⟩
  intro v roleID secretID rnd t0
  cases hM : v.Mutex with
  | true =>
    left
    rw [Vault.GetTokenByAppRole_held v roleID secretID rnd t0 hM]
    rfl
  | false =>
    by_cases hno : ∀ r, v.AppRoles roleID = some r → r.SecretID ≠ secretID
    · right
      rw [Vault.GetTokenByAppRole_mismatch v roleID secretID rnd t0 hM hno]
      rfl
    · left
      push_neg at hno
      obtain ⟨r, hr, hs⟩ := hno
      rw [Vault.GetTokenByAppRole_match v roleID secretID rnd t0 hM r hr hs]
      rfl

/-- C7: for a secret created by `CreateRoot` with TTL 0 at `createdAt` and not
overwritten since, and a valid token, a `GetSecretByToken` whose clock reading
is not before the creation returns the value exactly when the reading is
`createdAt` itself, and fails with the secret-unavailable error at every
reading after `createdAt`. -/
theorem C7_zero_ttl_live_only_at_creation (v0 v1 v : Vault) (name value token : String)
    (createdAt now1 now2 : Time) (tok : Token)
    (hcreate : v0.CreateRoot name value 0 createdAt = .returned () v1)
    (hkept : v.Secrets name = v1.Secrets name) (hfree : v.Mutex = false)
    (htok : v.Tokens token = some tok) (hvalid : now1 ≤ tok.ExpiresAt)
    (hread : createdAt ≤ now2) :
    (v.GetSecretByToken token name now1 now2 = .returned (value, none) v ↔
      now2 = createdAt) ∧
    (createdAt < now2 →
      v.GetSecretByToken token name now1 now2 =
        .returned ("", some errSecretUnavailable) v) := by
  have hs : v.Secrets name = some { Value := value, TTL := 0, CreatedAt := createdAt } := by
    rw [hkept]
    exact Vault.CreateRoot_returned v0 v1 name value 0 createdAt hcreate
  have hlate : createdAt < now2 →
      v.GetSecretByToken token name now1 now2 =
        .returned ("", some errSecretUnavailable) v := by
    intro hlt
    apply Vault.GetSecretByToken_noSecret v token name now1 now2 hfree tok htok hvalid
    intro s hs2
    rw [hs] at hs2
    cases hs2
    simpa using hlt
  refine ⟨⟨?_, ?_⟩, hlate⟩
  · intro hret
    rcases eq_or_lt_of_le hread with heq | hlt
    · exact heq.symm
    · rw [hlate hlt] at hret
      injection hret with hres _
      injection hres with _ herr
      cases herr
  · intro heq
    have := Vault.GetSecretByToken_live v token name now1 now2 hfree tok _ htok hvalid hs
      (by simp [heq])
    exact this

/-- C7, at `stockedVault`: the secret `zero`, created at time 0 with TTL 0, is
refused at time 1. -/
theorem C7_witness :
    stockedVault.GetSecretByToken issuedToken "zero" 1 1 =
      .returned ("", some errSecretUnavailable) stockedVault :=
  (C7_zero_ttl_live_only_at_creation
    (NewVault.run [.createRoot "db" "s3cr3t" Hour 0,
      .createRoot "long" "l0ng" (48 * Hour) 0]).vault
    ((NewVault.run [.createRoot "db" "s3cr3t" Hour 0,
      .createRoot "long" "l0ng" (48 * Hour) 0]).vault.CreateRoot "zero" "z3r0" 0 0).vault
    stockedVault "zero" "z3r0" issuedToken 0 1 1
    { Value := issuedToken, ExpiresAt := 24 * Hour } rfl rfl rfl rfl (by decide)
    (by decide)).2 (by decide)

/-- C8: a failed call has no partial effect.  From a state with the lock free,
`GetTokenByAppRole` with a pair that matches no registered role returns the
empty string and the invalid-credentials error and leaves the state, hence the
four maps, as it was; and whenever `GetSecretByToken` returns an error the
string it returns is empty. -/
theorem C8_failed_calls_have_no_partial_effect (v : Vault) (hfree : v.Mutex = false) :
    (∀ (roleID secretID : String) (rnd : List Nat) (now : Time),
      (∀ r, v.AppRoles roleID = some r → r.SecretID ≠ secretID) →
      v.GetTokenByAppRole roleID secretID rnd now =
        .returned ("", some errInvalidCredentials) v) ∧
    (∀ (token rootName : String) (now1 now2 : Time) (r : Result) (w : Vault),
      v.GetSecretByToken token rootName now1 now2 = .returned r w →
      r.2 ≠ none → r.1 = "") := by
  constructor
  · intro roleID secretID rnd now hno
    exact Vault.GetTokenByAppRole_mismatch v roleID secretID rnd now hfree hno
  · intro token rootName now1 now2 r w hret herr
    by_cases hno : ∀ tok, v.Tokens token = some tok → tok.ExpiresAt < now1
    · rw [Vault.GetSecretByToken_noToken v token rootName now1 now2 hfree hno] at hret
      injection hret with hres _
      rw [← hres]
    · push_neg at hno
      obtain ⟨tok, ht, hlive⟩ := hno
      rcases Vault.GetSecretByToken_accepted v token rootName now1 now2 hfree tok ht hlive with
        hr | ⟨s, hr⟩
      · rw [hr] at hret
        injection hret with hres _
        rw [← hres]
      · rw [hr] at hret
        injection hret with hres _
        rw [← hres] at herr
        exact absurd rfl herr

/-- C8, at the scenario: `role1` presented with a wrong secret identifier is
refused and the state is the one before the call. -/
theorem C8_witness :
    scenarioVault.GetTokenByAppRole "role1" "wrong" draw1 0 =
      .returned ("", some errInvalidCredentials) scenarioVault :=
  (C8_failed_calls_have_no_partial_effect scenarioVault rfl).1 "role1" "wrong" draw1 0
    (by
      intro r hr
      have h : r = { RoleID := "role1", SecretID := "secretA" } := by
        have h2 : scenarioVault.AppRoles "role1" =
            some { RoleID := "role1", SecretID := "secretA" } := rfl
        rw [h2] at hr
        injection hr with hr
        exact hr.symm
      rw [h]
      decide)

/-- C9, at the failing input: from `NewVault()`, `CreateRoot("db", "s3cr3t", 1h)`
and `CreateAppRole("role1", "secretA")` return, and then
`GetTokenByAppRole("role1", "secretA")` does not return a token: the sequence of
calls stops there with the lock held, and the reads that the scenario makes next
(with the generated value, and with `bogus`) do not return either.  When the
token is issued by a direct `GenerateToken()` instead, the three reads of the
scenario end as the claim says. -/
theorem C9_scenario_stops_at_GetTokenByAppRole :
    (NewVault.run [.createRoot "db" "s3cr3t" Hour 0,
      .createAppRole "role1" "secretA"]).isReturned = true ∧
    (NewVault.run [.createRoot "db" "s3cr3t" Hour 0, .createAppRole "role1" "secretA",
      .getTokenByAppRole "role1" "secretA" draw1 0]).isReturned = false ∧
    (scenarioVault.GetTokenByAppRole "role1" "secretA" draw1 0).result = none ∧
    ((scenarioVault.GetTokenByAppRole "role1" "secretA" draw1 0).vault.GetSecretByToken
      (generateRandomString 32 draw1) "db" 1 1).result = none ∧
    ((scenarioVault.GetTokenByAppRole "role1" "secretA" draw1 0).vault.GetSecretByToken
      "bogus" "db" 1 1).result = none ∧
    (issuedVault.GetSecretByToken issuedToken "db" 1 1).result = some ("s3cr3t", none) ∧
    (issuedVault.GetSecretByToken issuedToken "missing" 1 1).result =
      some ("", some errSecretUnavailable) ∧
    (issuedVault.GetSecretByToken "bogus" "db" 1 1).result =
      some ("", some errInvalidToken) := by
  decide

/-- C10, counterexample: in the state of the scenario, where `role1` is
registered with `secretA`, the first `GetTokenByAppRole("role1", "secretA")`
returns no token at all; and the step that issues tokens, `GenerateToken`, run
twice on the same bytes of the random source, returns the same value twice and
leaves one entry, whose `ExpiresAt` is that of the second issue. -/
theorem C10_counterexample_no_two_distinct_tokens :
    scenarioVault.AppRoles "role1" = some { RoleID := "role1", SecretID := "secretA" } ∧
    (scenarioVault.GetTokenByAppRole "role1" "secretA" draw1 0).result = none ∧
    (scenarioVault.GenerateToken draw1 0).result = some (issuedToken, none) ∧
    ((scenarioVault.GenerateToken draw1 0).vault.GenerateToken draw1 Hour).result =
      some (issuedToken, none) ∧
    ((scenarioVault.GenerateToken draw1 0).vault.GenerateToken draw1 Hour).vault.Tokens
      issuedToken = some { Value := issuedToken, ExpiresAt := Hour + 24 * Hour } := by
  decide

/-- C10, amended: from a state with the lock free, two successive issues of a
token (`GenerateToken`, the step `GetTokenByAppRole` hands over to) at times `t1`
and `t2`, on random bytes whose encodings differ, return two distinct values;
after the second issue both values are in the token store, each with its own
`ExpiresAt` of issue time plus 24 hours, and `GetSecretByToken` accepts each of
them exactly at the clock readings up to and including its own `ExpiresAt`,
whatever the other one is. -/
theorem C10_two_issues_are_independent (v : Vault) (rnd1 rnd2 : List Nat) (t1 t2 : Time)
    (hfree : v.Mutex = false)
    (hne : generateRandomString 32 rnd1 ≠ generateRandomString 32 rnd2) :
    ∃ w1 w2 : Vault,
      v.GenerateToken rnd1 t1 = .returned (generateRandomString 32 rnd1, none) w1 ∧
      w1.GenerateToken rnd2 t2 = .returned (generateRandomString 32 rnd2, none) w2 ∧
      w2.Mutex = false ∧
      w2.Tokens (generateRandomString 32 rnd1) =
        some { Value := generateRandomString 32 rnd1, ExpiresAt := t1 + 24 * Hour } ∧
      w2.Tokens (generateRandomString 32 rnd2) =
        some { Value := generateRandomString 32 rnd2, ExpiresAt := t2 + 24 * Hour } ∧
      ∀ (rootName : String) (now1 now2 : Time),
        ((w2.GetSecretByToken (generateRandomString 32 rnd1) rootName now1 now2).result ≠
            some ("", some errInvalidToken) ↔ now1 ≤ t1 + 24 * Hour) ∧
        ((w2.GetSecretByToken (generateRandomString 32 rnd2) rootName now1 now2).result ≠
            some ("", some errInvalidToken) ↔ now1 ≤ t2 + 24 * Hour) := by
  have hw1 := Vault.GenerateToken_free v rnd1 t1 hfree
  have hfree1 : ({ v with
      Tokens := mapSet v.Tokens (generateRandomString 32 rnd1)
        { Value := generateRandomString 32 rnd1, ExpiresAt := t1 + 24 * Hour } } :
      Vault).Mutex = false := hfree
  have hw2 := Vault.GenerateToken_free _ rnd2 t2 hfree1
  refine ⟨_, _, hw1, hw2, hfree, ?_, ?_, ?_⟩
  · show mapSet (mapSet v.Tokens _ _) _ _ _ = _
    rw [mapSet_other _ _ _ _ hne, mapSet_same]
  · show mapSet (mapSet v.Tokens _ _) _ _ _ = _
    rw [mapSet_same]
  · intro rootName now1 now2
    constructor
    · refine Iff.trans
        (Vault.GetSecretByToken_accepted_iff _ _ rootName now1 now2 (by exact hfree)) ?_
      show (∃ tok, mapSet (mapSet v.Tokens _ _) _ _ _ = some tok ∧ _) ↔ _
      rw [mapSet_other _ _ _ _ hne, mapSet_same]
      constructor
      · rintro ⟨tok, htok, hle⟩
        cases htok
        exact hle
      · intro hle
        exact ⟨_, rfl, hle⟩
    · refine Iff.trans
        (Vault.GetSecretByToken_accepted_iff _ _ rootName now1 now2 (by exact hfree)) ?_
      show (∃ tok, mapSet (mapSet v.Tokens _ _) _ _ _ = some tok ∧ _) ↔ _
      rw [mapSet_same]
      constructor
      · rintro ⟨tok, htok, hle⟩
        cases htok
        exact hle
      · intro hle
        exact ⟨_, rfl, hle⟩

/-- C10 amended, at the scenario: tokens issued at 0 on `draw1` and at 1h on
`draw2` are distinct and both stored, the first expiring at 24h and the second
at 25h. -/
theorem C10_witness :
    generateRandomString 32 draw1 ≠ generateRandomString 32 draw2 ∧
    ∃ w2 : Vault,
      w2.Tokens (generateRandomString 32 draw1) =
        some { Value := generateRandomString 32 draw1, ExpiresAt := 0 + 24 * Hour } ∧
      w2.Tokens (generateRandomString 32 draw2) =
        some { Value := generateRandomString 32 draw2, ExpiresAt := Hour + 24 * Hour } := by
  refine ⟨by decide, ?_⟩
  obtain ⟨_, w2, _, _, _, h1, h2, _⟩ :=
    C10_two_issues_are_independent scenarioVault draw1 draw2 0 Hour rfl (by decide)
  exact ⟨w2, h1, h2⟩

/-- The result of `GetSecretByToken` is a function of the token entry, the
secret entry and the two clock readings. -/
theorem Vault.GetSecretByToken_congr (v w : Vault) (token rootName : String)
    (now1 now2 : Time) (hv : v.Mutex = false) (hw : w.Mutex = false)
    (hT : w.Tokens token = v.Tokens token) (hS : w.Secrets rootName = v.Secrets rootName) :
    (w.GetSecretByToken token rootName now1 now2).result =
      (v.GetSecretByToken token rootName now1 now2).result := by
  by_cases hno : ∀ tok, v.Tokens token = some tok → tok.ExpiresAt < now1
  · rw [Vault.GetSecretByToken_noToken v token rootName now1 now2 hv hno,
      Vault.GetSecretByToken_noToken w token rootName now1 now2 hw (by rwa [hT])]
    rfl
  · push_neg at hno
    obtain ⟨tok, ht, hlive⟩ := hno
    by_cases hs : ∀ s, v.Secrets rootName = some s → s.CreatedAt + s.TTL < now2
    · rw [Vault.GetSecretByToken_noSecret v token rootName now1 now2 hv tok ht hlive hs,
        Vault.GetSecretByToken_noSecret w token rootName now1 now2 hw tok (by rwa [hT])
          hlive (by rwa [hS])]
      rfl
    · push_neg at hs
      obtain ⟨s, hs1, hs2⟩ := hs
      rw [Vault.GetSecretByToken_live v token rootName now1 now2 hv tok s ht hlive hs1 hs2,
        Vault.GetSecretByToken_live w token rootName now1 now2 hw tok s (by rwa [hT]) hlive
          (by rwa [hS]) hs2]
      rfl

/-- C11: the `Users` map takes no part in any authorization decision.  For two
states that differ at most in `Users`, and every input, clock reading and
random draw, `GetTokenByAppRole` and `GetSecretByToken` end the same way (the
same returned string and error, or neither returns) and leave the same
`Secrets`, `AppRoles` and `Tokens`; `CreateUser` leaves `Secrets`, `AppRoles`,
`Tokens` and the `Users` entries of all other names as they were, and when it
finds the lock free it returns and has set the entry of its username. -/
theorem C11_users_map_never_consulted (v w : Vault) (hS : w.Secrets = v.Secrets)
    (hA : w.AppRoles = v.AppRoles) (hT : w.Tokens = v.Tokens) (hM : w.Mutex = v.Mutex) :
    (∀ (roleID secretID : String) (rnd : List Nat) (now : Time),
      (w.GetTokenByAppRole roleID secretID rnd now).result =
        (v.GetTokenByAppRole roleID secretID rnd now).result ∧
      (w.GetTokenByAppRole roleID secretID rnd now).vault.Secrets =
        (v.GetTokenByAppRole roleID secretID rnd now).vault.Secrets ∧
      (w.GetTokenByAppRole roleID secretID rnd now).vault.AppRoles =
        (v.GetTokenByAppRole roleID secretID rnd now).vault.AppRoles ∧
      (w.GetTokenByAppRole roleID secretID rnd now).vault.Tokens =
        (v.GetTokenByAppRole roleID secretID rnd now).vault.Tokens) ∧
    (∀ (token rootName : String) (now1 now2 : Time),
      (w.GetSecretByToken token rootName now1 now2).result =
        (v.GetSecretByToken token rootName now1 now2).result ∧
      (w.GetSecretByToken token rootName now1 now2).vault.Secrets =
        (v.GetSecretByToken token rootName now1 now2).vault.Secrets ∧
      (w.GetSecretByToken token rootName now1 now2).vault.AppRoles =
        (v.GetSecretByToken token rootName now1 now2).vault.AppRoles ∧
      (w.GetSecretByToken token rootName now1 now2).vault.Tokens =
        (v.GetSecretByToken token rootName now1 now2).vault.Tokens) ∧
    (∀ (username password : String),
      (v.CreateUser username password).vault.Secrets = v.Secrets ∧
      (v.CreateUser username password).vault.AppRoles = v.AppRoles ∧
      (v.CreateUser username password).vault.Tokens = v.Tokens ∧
      ∀ j, j ≠ username → (v.CreateUser username password).vault.Users j = v.Users j) ∧
    (v.Mutex = false → ∀ (username password : String),
      ∃ u, v.CreateUser username password = .returned () u ∧
        u.Users username = some { Username := username, Password := password }) := by
  cases v with
  | mk S U A T M =>
    cases w with
    | mk S2 U2 A2 T2 M2 =>
      simp only at hS hA hT hM
      subst hS hA hT hM
      refine ⟨?_, ?_, ?_, ?_⟩
      · intro roleID secretID rnd now
        cases M2 with
        | true =>
          simp [Vault.GetTokenByAppRole, Vault.Lock, Outcome.result, Outcome.vault]
        | false =>
          by_cases hno : ∀ r, A2 roleID = some r → r.SecretID ≠ secretID
          · rw [Vault.GetTokenByAppRole_mismatch _ roleID secretID rnd now rfl hno,
              Vault.GetTokenByAppRole_mismatch _ roleID secretID rnd now rfl hno]
            simp [Outcome.result, Outcome.vault]
          · push_neg at hno
            obtain ⟨r, hr, hs⟩ := hno
            rw [Vault.GetTokenByAppRole_match _ roleID secretID rnd now rfl r hr hs,
              Vault.GetTokenByAppRole_match _ roleID secretID rnd now rfl r hr hs]
            simp [Outcome.result, Outcome.vault]
      · intro token rootName now1 now2
        cases M2 with
        | true =>
          simp [Vault.GetSecretByToken, Vault.Lock, Outcome.result, Outcome.vault]
        | false =>
          have h1 := Vault.GetSecretByToken_congr (Vault.mk S2 U A2 T2 false)
            (Vault.mk S2 U2 A2 T2 false) token rootName now1 now2 rfl rfl rfl rfl
          obtain ⟨r1, hr1⟩ := Vault.GetSecretByToken_free (Vault.mk S2 U A2 T2 false)
            token rootName now1 now2 rfl
          obtain ⟨r2, hr2⟩ := Vault.GetSecretByToken_free (Vault.mk S2 U2 A2 T2 false)
            token rootName now1 now2 rfl
          rw [hr1, hr2] at h1 ⊢
          simpa [Outcome.result, Outcome.vault] using h1
      · intro username password
        cases M2 with
        | true => simp [Vault.CreateUser, Vault.Lock, Outcome.vault]
        | false =>
          refine ⟨rfl, rfl, rfl, ?_⟩
          intro j hj
          exact mapSet_other _ _ _ _ hj
      · intro hfree username password
        simp only at hfree
        subst hfree
        exact ⟨_, Vault.CreateUser_free _ username password rfl, mapSet_same _ _ _⟩

/-- C11, at the scenario: with and without the user `alice`, a wrong secret
identifier for `role1` gets the same answer. -/
theorem C11_witness :
    ((scenarioVault.CreateUser "alice" "pw").vault.GetTokenByAppRole "role1" "wrong" draw1
        0).result =
      (scenarioVault.GetTokenByAppRole "role1" "wrong" draw1 0).result :=
  ((C11_users_map_never_consulted scenarioVault (scenarioVault.CreateUser "alice" "pw").vault
    rfl rfl rfl rfl).1 "role1" "wrong" draw1 0).1

/-- C12: a caller cannot tell never-existed from expired.  From a state with the
lock free, `GetSecretByToken` ends in the same way (string, error and state)
for a token whose entry is expired at the first clock reading and for a token
with no entry, namely with the invalid-token error; and, with a valid token,
in the same way for a name whose entry is expired at the second clock reading
and for a name with no entry, namely with the secret-unavailable error. -/
theorem C12_expired_and_absent_look_alike (v : Vault) (now1 now2 : Time)
    (hfree : v.Mutex = false) :
    (∀ (expired absent rootName : String) (tok : Token),
      v.Tokens expired = some tok → tok.ExpiresAt < now1 → v.Tokens absent = none →
      v.GetSecretByToken expired rootName now1 now2 =
        v.GetSecretByToken absent rootName now1 now2 ∧
      v.GetSecretByToken absent rootName now1 now2 =
        .returned ("", some errInvalidToken) v) ∧
    (∀ (token expired absent : String) (tok : Token) (s : Secret),
      v.Tokens token = some tok → now1 ≤ tok.ExpiresAt →
      v.Secrets expired = some s → s.CreatedAt + s.TTL < now2 → v.Secrets absent = none →
      v.GetSecretByToken token expired now1 now2 =
        v.GetSecretByToken token absent now1 now2 ∧
      v.GetSecretByToken token absent now1 now2 =
        .returned ("", some errSecretUnavailable) v) := by
  constructor
  · intro expired absent rootName tok ht hexp habs
    have h1 : v.GetSecretByToken expired rootName now1 now2 =
        .returned ("", some errInvalidToken) v := by
      apply Vault.GetSecretByToken_noToken v expired rootName now1 now2 hfree
      intro tok2 ht2
      rw [ht] at ht2
      cases ht2
      exact hexp
    have h2 : v.GetSecretByToken absent rootName now1 now2 =
        .returned ("", some errInvalidToken) v := by
      apply Vault.GetSecretByToken_noToken v absent rootName now1 now2 hfree
      intro tok2 ht2
      rw [habs] at ht2
      cases ht2
    exact ⟨h1.trans h2.symm, h2⟩
  · intro token expired absent tok s ht hlive hs hexp habs
    have h1 : v.GetSecretByToken token expired now1 now2 =
        .returned ("", some errSecretUnavailable) v := by
      apply Vault.GetSecretByToken_noSecret v token expired now1 now2 hfree tok ht hlive
      intro s2 hs2
      rw [hs] at hs2
      cases hs2
      exact hexp
    have h2 : v.GetSecretByToken token absent now1 now2 =
        .returned ("", some errSecretUnavailable) v := by
      apply Vault.GetSecretByToken_noSecret v token absent now1 now2 hfree tok ht hlive
      intro s2 hs2
      rw [habs] at hs2
      cases hs2
    exact ⟨h1.trans h2.symm, h2⟩

/-- C12, at `stockedVault` thirty hours after its first token was issued: that
token, expired, and the string `bogus`, never issued, get the same answer. -/
theorem C12_witness :
    stockedVault.GetSecretByToken issuedToken "long" (30 * Hour) (30 * Hour) =
      stockedVault.GetSecretByToken "bogus" "long" (30 * Hour) (30 * Hour) :=
  ((C12_expired_and_absent_look_alike stockedVault (30 * Hour) (30 * Hour) rfl).1
    issuedToken "bogus" "long" { Value := issuedToken, ExpiresAt := 24 * Hour } rfl
    (by decide) rfl).1

/-- C13: `GetSecretByToken` never modifies the vault.  Whatever the state, the
token, the name and the clock readings, the state after the call is the state
before it, so the four maps are the same and no expired entry was removed; and
when the call finds the lock free it returns, on each of its three paths, with
that same state. -/
theorem C13_GetSecretByToken_changes_nothing (v : Vault) (token rootName : String)
    (now1 now2 : Time) :
    (v.GetSecretByToken token rootName now1 now2).vault = v ∧
    (v.GetSecretByToken token rootName now1 now2).vault.Secrets = v.Secrets ∧
    (v.GetSecretByToken token rootName now1 now2).vault.Users = v.Users ∧
    (v.GetSecretByToken token rootName now1 now2).vault.AppRoles = v.AppRoles ∧
    (v.GetSecretByToken token rootName now1 now2).vault.Tokens = v.Tokens ∧
    (v.Mutex = false →
      ∃ r : Result, v.GetSecretByToken token rootName now1 now2 = .returned r v) := by
  have h : (v.GetSecretByToken token rootName now1 now2).vault = v := by
    cases hM : v.Mutex with
    | true =>
      rw [Vault.GetSecretByToken_held v token rootName now1 now2 hM]
      rfl
    | false =>
      obtain ⟨r, hr⟩ := Vault.GetSecretByToken_free v token rootName now1 now2 hM
      rw [hr]
      rfl
  refine ⟨h, ?_, ?_, ?_, ?_, ?_⟩
  · rw [h]
  · rw [h]
  · rw [h]
  · rw [h]
  · exact Vault.GetSecretByToken_free v token rootName now1 now2

/-- C17: `CreateRoot(name, value, ttl)` at clock time `t`, finding the lock
free, returns, whatever `value` and `ttl` are, and leaves a state in which the
entry of `name` is exactly `Value: value, TTL: ttl, CreatedAt: t`, every other
secret entry and the maps `Users`, `AppRoles` and `Tokens` are as before and
the lock is free.  In that state a `GetSecretByToken` on `name` with a valid
token answers from the new entry alone: it returns `value` when its clock
reading is not after `t + ttl` and the secret-unavailable error otherwise,
whatever was stored at `name` before. -/
theorem C17_CreateRoot_overwrites (v : Vault) (name value : String) (ttl : Duration)
    (t : Time) (hfree : v.Mutex = false) :
    ∃ w : Vault,
      v.CreateRoot name value ttl t = .returned () w ∧
      w.Secrets name = some { Value := value, TTL := ttl, CreatedAt := t } ∧
      (∀ j, j ≠ name → w.Secrets j = v.Secrets j) ∧
      w.Users = v.Users ∧ w.AppRoles = v.AppRoles ∧ w.Tokens = v.Tokens ∧
      w.Mutex = false ∧
      ∀ (token : String) (tok : Token) (now1 now2 : Time),
        w.Tokens token = some tok → now1 ≤ tok.ExpiresAt →
        (now2 ≤ t + ttl →
          w.GetSecretByToken token name now1 now2 = .returned (value, none) w) ∧
        (t + ttl < now2 →
          w.GetSecretByToken token name now1 now2 =
            .returned ("", some errSecretUnavailable) w) := by
  let w : Vault :=
    { v with Secrets := mapSet v.Secrets name { Value := value, TTL := ttl, CreatedAt := t } }
  have hwfree : w.Mutex = false := hfree
  have hws : w.Secrets name = some { Value := value, TTL := ttl, CreatedAt := t } :=
    mapSet_same _ _ _
  refine ⟨w, Vault.CreateRoot_free v name value ttl t hfree, hws, ?_, rfl, rfl, rfl, hwfree, ?_⟩
  · intro j hj
    exact mapSet_other _ _ _ _ hj
  · intro token tok now1 now2 htok hvalid
    constructor
    · intro hle
      exact Vault.GetSecretByToken_live w token name now1 now2 hwfree tok _ htok hvalid hws hle
    · intro hlt
      apply Vault.GetSecretByToken_noSecret w token name now1 now2 hwfree tok htok hvalid
      intro s hs
      rw [hws] at hs
      cases hs
      exact hlt

/-- C17, at `stockedVault` thirty minutes before its first token expires: the
secret `db`, expired since 1h, is created again with a new value and a TTL of
one hour, and the read that follows returns the new value. -/
theorem C17_witness :
    ((stockedVault.CreateRoot "db" "n3w" Hour (23 * Hour)).vault.GetSecretByToken issuedToken
        "db" (23 * Hour) (23 * Hour)).result = some ("n3w", none) := by
  obtain ⟨w, hw, _, _, _, _, _, _, hread⟩ :=
    C17_CreateRoot_overwrites stockedVault "db" "n3w" Hour (23 * Hour) rfl
  rw [hw]
  have htok : w.Tokens issuedToken = some { Value := issuedToken, ExpiresAt := 24 * Hour } := by
    have hw2 : (stockedVault.CreateRoot "db" "n3w" Hour (23 * Hour)).vault = w := by
      rw [hw]
      rfl
    rw [← hw2]
    rfl
  show (w.GetSecretByToken issuedToken "db" (23 * Hour) (23 * Hour)).result = _
  rw [(hread issuedToken _ (23 * Hour) (23 * Hour) htok (by decide)).1 (by decide)]
  rfl

/-- C18: for a secret created by `CreateRoot` with a negative TTL at
`createdAt` and not overwritten since, `GetSecretByToken` with a valid token
fails with the secret-unavailable error at every clock reading from `createdAt`
on, the creation instant included. -/
theorem C18_negative_ttl_never_live (v0 v1 v : Vault) (name value token : String)
    (ttl : Duration) (createdAt now1 now2 : Time) (tok : Token) (hneg : ttl < 0)
    (hcreate : v0.CreateRoot name value ttl createdAt = .returned () v1)
    (hkept : v.Secrets name = v1.Secrets name) (hfree : v.Mutex = false)
    (htok : v.Tokens token = some tok) (hvalid : now1 ≤ tok.ExpiresAt)
    (hread : createdAt ≤ now2) :
    v.GetSecretByToken token name now1 now2 =
      .returned ("", some errSecretUnavailable) v := by
  have hs : v.Secrets name = some { Value := value, TTL := ttl, CreatedAt := createdAt } := by
    rw [hkept]
    exact Vault.CreateRoot_returned v0 v1 name value ttl createdAt hcreate
  apply Vault.GetSecretByToken_noSecret v token name now1 now2 hfree tok htok hvalid
  intro s hs2
  rw [hs] at hs2
  cases hs2
  have h1 : createdAt + ttl < createdAt := by
    have h2 := Int.add_lt_add_left hneg createdAt
    simpa using h2
  exact lt_of_lt_of_le h1 hread

/-- C18, at `stockedVault`: the secret `neg`, created at time 0 with a TTL of
minus one hour, is refused at time 0 itself. -/
theorem C18_witness :
    stockedVault.GetSecretByToken issuedToken "neg" 0 0 =
      .returned ("", some errSecretUnavailable) stockedVault :=
  C18_negative_ttl_never_live
    (NewVault.run [.createRoot "db" "s3cr3t" Hour 0, .createRoot "long" "l0ng" (48 * Hour) 0,
      .createRoot "zero" "z3r0" 0 0]).vault
    ((NewVault.run [.createRoot "db" "s3cr3t" Hour 0, .createRoot "long" "l0ng" (48 * Hour) 0,
      .createRoot "zero" "z3r0" 0 0]).vault.CreateRoot "neg" "n3g" (-Hour) 0).vault
    stockedVault "neg" "n3g" issuedToken (-Hour) 0 0 0
    { Value := issuedToken, ExpiresAt := 24 * Hour } (by decide) rfl rfl rfl rfl (by decide)
    (by decide)

/-- C20: without a valid token nothing is learned about the secret store.  When
the token has no entry, or its entry is expired at the first clock reading, a
`GetSecretByToken` that finds the lock free returns the empty string and the
invalid-token error for every secret name, every second clock reading and every
content of the `Secrets` map, and leaves the state as it was; it is never the
secret-unavailable error, also when the name is missing. -/
theorem C20_invalid_token_reveals_nothing (v : Vault) (token : String) (now1 : Time)
    (hfree : v.Mutex = false)
    (hinvalid : v.Tokens token = none ∨
      ∃ tok, v.Tokens token = some tok ∧ tok.ExpiresAt < now1) :
    ∀ (secrets : GoMap Secret) (rootName : String) (now2 : Time),
      ({ v with Secrets := secrets } : Vault).GetSecretByToken token rootName now1 now2 =
        .returned ("", some errInvalidToken) { v with Secrets := secrets } ∧
      (({ v with Secrets := secrets } : Vault).GetSecretByToken token rootName now1
        now2).result ≠ some ("", some errSecretUnavailable) := by
  intro secrets rootName now2
  have h : ({ v with Secrets := secrets } : Vault).GetSecretByToken token rootName now1 now2 =
      .returned ("", some errInvalidToken) { v with Secrets := secrets } := by
    apply Vault.GetSecretByToken_noToken ({ v with Secrets := secrets } : Vault) token
      rootName now1 now2 hfree
    intro tok ht
    have ht2 : v.Tokens token = some tok := ht
    rcases hinvalid with hnone | ⟨tok2, h2, hexp⟩
    · rw [hnone] at ht2
      cases ht2
    · rw [h2] at ht2
      cases ht2
      exact hexp
  refine ⟨h, ?_⟩
  rw [h]
  simp [Outcome.result, errSecretUnavailable_ne_errInvalidToken.symm]

/-- C20, at the scenario: the never issued token `bogus` with the missing name
`missing` gets the invalid-token error, whatever the `Secrets` map holds. -/
theorem C20_witness :
    ({ scenarioVault with Secrets := GoMap.empty } : Vault).GetSecretByToken "bogus" "missing"
        5 5 =
      .returned ("", some errInvalidToken) { scenarioVault with Secrets := GoMap.empty } :=
  (C20_invalid_token_reveals_nothing scenarioVault "bogus" 5 rfl (Or.inl rfl) GoMap.empty
    "missing" 5).1

/-! ## Sequences of calls and the token store -/

/-- One call leaves the token store as it was, unless it is a `GenerateToken`,
which may set the entry of the value it generated. -/
theorem Vault.step_tokens (v : Vault) (op : Op) :
    (v.step op).vault.Tokens = v.Tokens ∨
      ∃ rnd now, op = .generateToken rnd now ∧
        (v.step op).vault.Tokens = mapSet v.Tokens (generateRandomString 32 rnd)
          { Value := generateRandomString 32 rnd, ExpiresAt := now + 24 * Hour } := by
  cases hM : v.Mutex with
  | true =>
    left
    rw [Vault.step_held v op hM]
    rfl
  | false =>
    cases op with
    | createRoot name secretValue ttl now =>
      left
      simp only [Vault.step, Vault.CreateRoot_free v name secretValue ttl now hM]
      rfl
    | createUser username password =>
      left
      simp only [Vault.step, Vault.CreateUser_free v username password hM]
      rfl
    | createAppRole roleID secretID =>
      left
      simp only [Vault.step, Vault.CreateAppRole_free v roleID secretID hM]
      rfl
    | generateToken rnd now =>
      right
      refine ⟨rnd, now, rfl, ?_⟩
      simp only [Vault.step, Vault.GenerateToken_free v rnd now hM]
      rfl
    | getTokenByAppRole roleID secretID rnd now =>
      left
      by_cases hno : ∀ r, v.AppRoles roleID = some r → r.SecretID ≠ secretID
      · simp only [Vault.step, Vault.GetTokenByAppRole_mismatch v roleID secretID rnd now hM hno]
        rfl
      · push_neg at hno
        obtain ⟨r, hr, hs⟩ := hno
        simp only [Vault.step, Vault.GetTokenByAppRole_match v roleID secretID rnd now hM r hr hs]
        rfl
    | getSecretByToken token rootName now1 now2 =>
      left
      obtain ⟨r, hr⟩ := Vault.GetSecretByToken_free v token rootName now1 now2 hM
      simp only [Vault.step, hr]
      rfl

/-- A call that finds the lock free and returns leaves the lock free. -/
theorem Vault.step_returned_free (v w : Vault) (op : Op) (h : v.Mutex = false)
    (hr : v.step op = .returned () w) : w.Mutex = false := by
  by_cases hop : ∀ roleID secretID rnd now, op = .getTokenByAppRole roleID secretID rnd now →
      ∀ r, v.AppRoles roleID = some r → r.SecretID ≠ secretID
  · obtain ⟨u, hu, hfree⟩ := Vault.step_free v op h hop
    rw [hu] at hr
    injection hr with _ huw
    rw [← huw]
    exact hfree
  · push_neg at hop
    obtain ⟨roleID, secretID, rnd, now, hop, r, hr2, hs⟩ := hop
    subst hop
    simp only [Vault.step, Vault.GetTokenByAppRole_match v roleID secretID rnd now h r hr2 hs]
      at hr
    cases hr

/-- The state after a sequence of calls, one call unfolded. -/
theorem Vault.run_cons_vault (v : Vault) (op : Op) (ops : List Op) :
    (v.run (op :: ops)).vault = ((v.step op).vault.run ops).vault ∨
      (v.run (op :: ops)).vault = (v.step op).vault := by
  cases hstep : v.step op with
  | returned u w =>
    left
    simp only [Vault.run, hstep, Outcome.vault]
  | blocked w =>
    right
    simp only [Vault.run, hstep, Outcome.vault]

/-- The lock is free after every sequence of calls that all returned. -/
theorem Vault.run_returned_free (ops : List Op) (v w : Vault) (h : v.Mutex = false)
    (hr : v.run ops = .returned () w) : w.Mutex = false := by
  induction ops generalizing v with
  | nil =>
    simp only [Vault.run] at hr
    injection hr with _ hvw
    rw [← hvw]
    exact h
  | cons op ops ih =>
    cases hstep : v.step op with
    | returned u x =>
      simp only [Vault.run, hstep] at hr
      exact ih x (Vault.step_returned_free v x op h hstep) hr
    | blocked x =>
      simp only [Vault.run, hstep] at hr
      cases hr

/-- Every token entry found after a sequence of calls was there before it or
was written by a `GenerateToken` of the sequence. -/
theorem Vault.run_tokens (ops : List Op) (v : Vault) (token : String) (tok : Token)
    (h : (v.run ops).vault.Tokens token = some tok) :
    v.Tokens token = some tok ∨
      ∃ rnd now, Op.generateToken rnd now ∈ ops ∧ token = generateRandomString 32 rnd ∧
        tok = { Value := token, ExpiresAt := now + 24 * Hour } := by
  induction ops generalizing v with
  | nil => exact Or.inl h
  | cons op ops ih =>
    have hstep : (v.step op).vault.Tokens token = some tok ∨
        ∃ rnd now, Op.generateToken rnd now ∈ ops ∧ token = generateRandomString 32 rnd ∧
          tok = { Value := token, ExpiresAt := now + 24 * Hour } := by
      rcases Vault.run_cons_vault v op ops with hrun | hrun
      · rw [hrun] at h
        exact ih _ h
      · rw [hrun] at h
        exact Or.inl h
    rcases hstep with hstep | ⟨rnd, now, hmem, h1, h2⟩
    · rcases Vault.step_tokens v op with hT | ⟨rnd, now, hop, hT⟩
      · rw [hT] at hstep
        exact Or.inl hstep
      · rw [hT] at hstep
        by_cases hk : token = generateRandomString 32 rnd
        · right
          refine ⟨rnd, now, ?_, hk, ?_⟩
          · rw [hop]
            exact List.mem_cons_self _ _
          · rw [hk, mapSet_same] at hstep
            injection hstep with hstep
            rw [← hstep, hk]
        · rw [mapSet_other _ _ _ _ hk] at hstep
          exact Or.inl hstep
    · exact Or.inr ⟨rnd, now, List.mem_cons_of_mem _ hmem, h1, h2⟩

/-- A token entry stays as it is through every sequence of calls in which no
issue of a token generates its value again. -/
theorem Vault.run_keeps_token (ops : List Op) (v : Vault) (token : String) (tok : Token)
    (hentry : v.Tokens token = some tok)
    (hfresh : ∀ rnd now, Op.generateToken rnd now ∈ ops →
      generateRandomString 32 rnd ≠ token) :
    (v.run ops).vault.Tokens token = some tok := by
  induction ops generalizing v with
  | nil => exact hentry
  | cons op ops ih =>
    have hstep : (v.step op).vault.Tokens token = some tok := by
      rcases Vault.step_tokens v op with hT | ⟨rnd, now, hop, hT⟩
      · rw [hT]
        exact hentry
      · rw [hT, mapSet_other _ _ _ _
          (Ne.symm (hfresh rnd now (by rw [hop]; exact List.mem_cons_self _ _)))]
        exact hentry
    rcases Vault.run_cons_vault v op ops with hrun | hrun
    · rw [hrun]
      exact ih _ hstep (fun rnd now hmem => hfresh rnd now (List.mem_cons_of_mem _ hmem))
    · rw [hrun]
      exact hstep

/-- C15, counterexample: `GenerateToken` is itself a public method and checks
no credential.  From `NewVault()`, `CreateRoot("long", "l0ng", 48h)` followed by
one direct `GenerateToken()` returns and leaves a token entry, although no
AppRole was ever registered and `GetTokenByAppRole` was never called; and
`GetSecretByToken` accepts that token. -/
theorem C15_counterexample_token_without_authentication :
    (NewVault.run [.createRoot "long" "l0ng" (48 * Hour) 0,
      .generateToken draw1 0]).isReturned = true ∧
    (NewVault.run [.createRoot "long" "l0ng" (48 * Hour) 0,
      .generateToken draw1 0]).vault.Tokens issuedToken =
        some { Value := issuedToken, ExpiresAt := 24 * Hour } ∧
    (∀ roleID, (NewVault.run [.createRoot "long" "l0ng" (48 * Hour) 0,
      .generateToken draw1 0]).vault.AppRoles roleID = none) ∧
    ((NewVault.run [.createRoot "long" "l0ng" (48 * Hour) 0,
      .generateToken draw1 0]).vault.GetSecretByToken issuedToken "long" 1 1).result =
        some ("l0ng", none) := by
  refine ⟨by decide, by decide, ?_, by decide⟩
  intro roleID
  rfl

/-- C15, amended: tokens are created only by an issue of a token.  In every
state reached from `NewVault()` by a sequence of calls of the public methods,
every entry of the token store was written by an issuing call of the sequence
(a `GenerateToken`, or a `GetTokenByAppRole`, which hands over to it): its key
is the value generated from that call's random bytes, its `Value` is its key
and its `ExpiresAt` is that call's clock reading plus 24 hours.  `CreateRoot`,
`CreateUser`, `CreateAppRole` and `GetSecretByToken` never change the token
store. -/
theorem C15_tokens_only_from_issuing_calls (ops : List Op) :
    (∀ (token : String) (tok : Token),
      (NewVault.run ops).vault.Tokens token = some tok →
      ∃ rnd now,
        (Op.generateToken rnd now ∈ ops ∨
          ∃ roleID secretID, Op.getTokenByAppRole roleID secretID rnd now ∈ ops) ∧
        token = generateRandomString 32 rnd ∧
        tok = { Value := token, ExpiresAt := now + 24 * Hour }) ∧
    (∀ (v : Vault) (op : Op), (∀ rnd now, op ≠ .generateToken rnd now) →
      (∀ roleID secretID rnd now, op ≠ .getTokenByAppRole roleID secretID rnd now) →
      (v.step op).vault.Tokens = v.Tokens) := by
  constructor
  · intro token tok h
    rcases Vault.run_tokens ops NewVault token tok h with hnew | ⟨rnd, now, hmem, h1, h2⟩
    · cases hnew
    · exact ⟨rnd, now, Or.inl hmem, h1, h2⟩
  · intro v op hop _
    rcases Vault.step_tokens v op with hT | ⟨rnd, now, hgen, _⟩
    · exact hT
    · exact absurd hgen (hop rnd now)

/-- C16, counterexample: a token is revived when a later issue generates its
value again.  The token issued at time 0 on `draw1` expires at 24h and is
rejected at 25h; a `GenerateToken` at 26h that draws the same bytes sets the
`ExpiresAt` of the same entry to 50h, and at 27h the token is accepted. -/
theorem C16_counterexample_token_revived_by_equal_draw :
    (NewVault.run [.createRoot "long" "l0ng" (48 * Hour) 0,
      .generateToken draw1 0]).vault.Tokens issuedToken =
        some { Value := issuedToken, ExpiresAt := 24 * Hour } ∧
    ((NewVault.run [.createRoot "long" "l0ng" (48 * Hour) 0,
      .generateToken draw1 0]).vault.GetSecretByToken issuedToken "long" (25 * Hour)
        (25 * Hour)).result = some ("", some errInvalidToken) ∧
    (NewVault.run [.createRoot "long" "l0ng" (48 * Hour) 0, .generateToken draw1 0,
      .getSecretByToken issuedToken "long" (25 * Hour) (25 * Hour),
      .generateToken draw1 (26 * Hour)]).vault.Tokens issuedToken =
        some { Value := issuedToken, ExpiresAt := 50 * Hour } ∧
    ((NewVault.run [.createRoot "long" "l0ng" (48 * Hour) 0, .generateToken draw1 0,
      .getSecretByToken issuedToken "long" (25 * Hour) (25 * Hour),
      .generateToken draw1 (26 * Hour)]).vault.GetSecretByToken issuedToken "long" (27 * Hour)
        (27 * Hour)).result = some ("l0ng", none) := by
  decide

/-- C16, amended: a token entry is never removed, and it is changed only by an
issue that generates its value again.  Through every sequence of calls in which
no issue of a token (`GenerateToken`, `GetTokenByAppRole`) generates the value of
an existing entry, that entry is still present with the same `ExpiresAt`; and
then, once `GetSecretByToken` has rejected the token with the invalid-token
error at some clock reading, it rejects it at every clock reading that is not
earlier, in the state after any such sequence whose calls all returned. -/
theorem C16_token_entry_kept_until_value_drawn_again (v : Vault) (ops : List Op)
    (token : String) (tok : Token) (hentry : v.Tokens token = some tok)
    (hfresh : ∀ rnd now, Op.generateToken rnd now ∈ ops →
      generateRandomString 32 rnd ≠ token)
    (_hfresh2 : ∀ roleID secretID rnd now, Op.getTokenByAppRole roleID secretID rnd now ∈ ops →
      generateRandomString 32 rnd ≠ token) :
    (v.run ops).vault.Tokens token = some tok ∧
    ∀ (w : Vault) (name1 name3 : String) (now1 now2 now3 now4 : Time),
      v.GetSecretByToken token name1 now1 now2 = .returned ("", some errInvalidToken) v →
      v.run ops = .returned () w → now1 ≤ now3 →
      w.GetSecretByToken token name3 now3 now4 = .returned ("", some errInvalidToken) w := by
  have hkept := Vault.run_keeps_token ops v token tok hentry hfresh
  refine ⟨hkept, ?_⟩
  intro w name1 name3 now1 now2 now3 now4 hrej hrun hle
  have hfree : v.Mutex = false := by
    cases hM : v.Mutex with
    | false => rfl
    | true =>
      rw [Vault.GetSecretByToken_held v token name1 now1 now2 hM] at hrej
      cases hrej
  have hexp : tok.ExpiresAt < now1 := by
    by_contra hnot
    have hacc := (Vault.GetSecretByToken_accepted_iff v token name1 now1 now2 hfree).mpr
      ⟨tok, hentry, not_lt.mp hnot⟩
    rw [hrej] at hacc
    exact hacc rfl
  have hw : w.Tokens token = some tok := by
    rw [hrun] at hkept
    exact hkept
  apply Vault.GetSecretByToken_noToken w token name3 now3 now4
    (Vault.run_returned_free ops v w hfree hrun)
  intro tok2 ht2
  rw [hw] at ht2
  cases ht2
  exact lt_of_lt_of_le hexp hle

/-- C16 amended, at `issuedVault`: after a `CreateUser`, an issue on other
random bytes at 1h and a read, the token issued at 0 still expires at 24h. -/
theorem C16_witness :
    (issuedVault.run [.createUser "alice" "pw", .generateToken draw2 Hour,
      .getSecretByToken issuedToken "db" Hour Hour]).vault.Tokens issuedToken =
        some { Value := issuedToken, ExpiresAt := 24 * Hour } :=
  (C16_token_entry_kept_until_value_drawn_again issuedVault
    [.createUser "alice" "pw", .generateToken draw2 Hour,
      .getSecretByToken issuedToken "db" Hour Hour]
    issuedToken { Value := issuedToken, ExpiresAt := 24 * Hour } rfl
    (by
      intro rnd now hmem
      simp only [List.mem_cons, List.mem_singleton, Op.generateToken.injEq, reduceCtorEq,
        false_or, or_false, List.not_mem_nil] at hmem
      rw [hmem.1]
      decide)
    (by
      intro roleID secretID rnd now hmem
      simp only [List.mem_cons, List.mem_singleton, reduceCtorEq, or_self,
        List.not_mem_nil] at hmem)).1

/-! ## The encoding of token values -/

theorem decodeChar_encodeChar (i : Nat) : decodeChar (encodeChar i) = i % 64 := by
  have h : ∀ k : Fin 64, encodeURL.indexOf (encodeURL.getD k.val 'A') = k.val := by decide
  exact h ⟨i % 64, Nat.mod_lt _ (by decide)⟩

theorem isURLSafeChar_encodeChar (i : Nat) : isURLSafeChar (encodeChar i) = true := by
  have h : ∀ k : Fin 64, isURLSafeChar (encodeURL.getD k.val 'A') = true := by decide
  exact h ⟨i % 64, Nat.mod_lt _ (by decide)⟩

theorem encodeChar_inj (i j : Nat) (h : encodeChar i = encodeChar j) : i % 64 = j % 64 := by
  rw [← decodeChar_encodeChar i, ← decodeChar_encodeChar j, h]

theorem generateRandomString_eq (n : Nat) (rnd : List Nat) :
    generateRandomString n rnd = String.mk (base64Encode (randomBytes n rnd)) := rfl

theorem randomBytes_length (n : Nat) (rnd : List Nat) : (randomBytes n rnd).length = n := by
  simp [randomBytes]

theorem randomBytes_lt (n : Nat) (rnd : List Nat) : ∀ x ∈ randomBytes n rnd, x < 256 := by
  intro x hx
  simp only [randomBytes, List.mem_map] at hx
  obtain ⟨i, _, hi⟩ := hx
  rw [← hi]
  exact Nat.mod_lt _ (by decide)

/-- On an output of exactly `n` bytes the bytes encoded are that output. -/
theorem randomBytes_of_bytes (n : Nat) (rnd : List Nat) (hlen : rnd.length = n)
    (hlt : ∀ x ∈ rnd, x < 256) : randomBytes n rnd = rnd := by
  apply List.ext_getElem
  · simp [randomBytes, hlen]
  · intro i h1 h2
    simp only [randomBytes, List.getElem_map, List.getElem_range]
    rw [List.getD_eq_getElem _ _ h2]
    exact Nat.mod_eq_of_lt (hlt _ (List.getElem_mem h2))

/-- Shape of the encoding of `3 * n + 2` bytes: `4 * n + 3` characters of the
alphabet, then one `=`. -/
theorem base64Encode_shape (n : Nat) :
    ∀ l : List Nat, l.length = 3 * n + 2 →
      ∃ cs : List Char, base64Encode l = cs ++ ['='] ∧ cs.length = 4 * n + 3 ∧
        ∀ c ∈ cs, isURLSafeChar c = true := by
  induction n with
  | zero =>
    intro l hl
    match l, hl with
    | [b0, b1], _ =>
      refine ⟨[encodeChar ((b0 * 65536 + b1 * 256) / 262144),
        encodeChar ((b0 * 65536 + b1 * 256) / 4096),
        encodeChar ((b0 * 65536 + b1 * 256) / 64)], rfl, rfl, ?_⟩
      intro c hc
      simp only [List.mem_cons, List.mem_singleton, List.not_mem_nil, or_false] at hc
      rcases hc with hc | hc | hc <;> rw [hc] <;> exact isURLSafeChar_encodeChar _
  | succ n ih =>
    intro l hl
    match l, hl with
    | b0 :: b1 :: b2 :: rest, hl =>
      have hrest : rest.length = 3 * n + 2 := by
        simp only [List.length_cons] at hl
        omega
      obtain ⟨cs, hcs, hlen, hsafe⟩ := ih rest hrest
      refine ⟨encodeChar ((b0 * 65536 + b1 * 256 + b2) / 262144) ::
        encodeChar ((b0 * 65536 + b1 * 256 + b2) / 4096) ::
        encodeChar ((b0 * 65536 + b1 * 256 + b2) / 64) ::
        encodeChar (b0 * 65536 + b1 * 256 + b2) :: cs, ?_, ?_, ?_⟩
      · simp only [base64Encode, hcs, List.cons_append]
      · simp only [List.length_cons, hlen]
        omega
      · intro c hc
        simp only [List.mem_cons] at hc
        rcases hc with hc | hc | hc | hc | hc
        · rw [hc]; exact isURLSafeChar_encodeChar _
        · rw [hc]; exact isURLSafeChar_encodeChar _
        · rw [hc]; exact isURLSafeChar_encodeChar _
        · rw [hc]; exact isURLSafeChar_encodeChar _
        · exact hsafe c hc

/-- Three bytes are determined by their four six-bit groups. -/
theorem sextets_inj (a0 a1 a2 b0 b1 b2 : Nat) (ha0 : a0 < 256) (ha1 : a1 < 256)
    (ha2 : a2 < 256) (hb0 : b0 < 256) (hb1 : b1 < 256) (hb2 : b2 < 256)
    (h1 : (a0 * 65536 + a1 * 256 + a2) / 262144 % 64 =
      (b0 * 65536 + b1 * 256 + b2) / 262144 % 64)
    (h2 : (a0 * 65536 + a1 * 256 + a2) / 4096 % 64 = (b0 * 65536 + b1 * 256 + b2) / 4096 % 64)
    (h3 : (a0 * 65536 + a1 * 256 + a2) / 64 % 64 = (b0 * 65536 + b1 * 256 + b2) / 64 % 64)
    (h4 : (a0 * 65536 + a1 * 256 + a2) % 64 = (b0 * 65536 + b1 * 256 + b2) % 64) :
    a0 = b0 ∧ a1 = b1 ∧ a2 = b2 := by
  omega

/-- The encoding is injective on byte strings of length `3 * n + 2`. -/
theorem base64Encode_inj (n : Nat) :
    ∀ l1 l2 : List Nat, l1.length = 3 * n + 2 → l2.length = 3 * n + 2 →
      (∀ x ∈ l1, x < 256) → (∀ x ∈ l2, x < 256) →
      base64Encode l1 = base64Encode l2 → l1 = l2 := by
  induction n with
  | zero =>
    intro l1 l2 h1 h2 hb1 hb2 h
    match l1, l2, h1, h2 with
    | [a0, a1], [b0, b1], _, _ =>
      simp only [base64Encode, List.cons.injEq, and_true] at h
      obtain ⟨e1, e2, e3⟩ := h
      have g1 := encodeChar_inj _ _ e1
      have g2 := encodeChar_inj _ _ e2
      have g3 := encodeChar_inj _ _ e3
      have := sextets_inj a0 a1 0 b0 b1 0 (hb1 a0 (by simp)) (hb1 a1 (by simp)) (by decide)
        (hb2 b0 (by simp)) (hb2 b1 (by simp)) (by decide) (by simpa using g1)
        (by simpa using g2) (by simpa using g3) (by omega)
      rw [this.1, this.2.1]
  | succ n ih =>
    intro l1 l2 h1 h2 hb1 hb2 h
    match l1, l2, h1, h2 with
    | a0 :: a1 :: a2 :: r1, b0 :: b1 :: b2 :: r2, h1, h2 =>
      simp only [base64Encode, List.cons.injEq] at h
      obtain ⟨e1, e2, e3, e4, erest⟩ := h
      have hr1 : r1.length = 3 * n + 2 := by
        simp only [List.length_cons] at h1
        omega
      have hr2 : r2.length = 3 * n + 2 := by
        simp only [List.length_cons] at h2
        omega
      have hrest := ih r1 r2 hr1 hr2
        (fun x hx => hb1 x (by simp [hx])) (fun x hx => hb2 x (by simp [hx])) erest
      have := sextets_inj a0 a1 a2 b0 b1 b2 (hb1 a0 (by simp)) (hb1 a1 (by simp))
        (hb1 a2 (by simp)) (hb2 b0 (by simp)) (hb2 b1 (by simp)) (hb2 b2 (by simp))
        (encodeChar_inj _ _ e1) (encodeChar_inj _ _ e2) (encodeChar_inj _ _ e3)
        (encodeChar_inj _ _ e4)
      rw [this.1, this.2.1, this.2.2, hrest]

/-- C19: the token value is the padded URL-safe base64 of the 32 random bytes.
For every content of the random source, `generateRandomString(32)` is 44
characters long, its first 43 characters are among `A`-`Z`, `a`-`z`, `0`-`9`,
`-` and `_`, and its last character is `=`; on a 32-byte output it is the
encoding of exactly those bytes; two 32-byte outputs with the same token value
are the same bytes; and the bytes 0, 1, ..., 31 give the known encoding. -/
theorem C19_token_value_is_padded_url_safe_base64 :
    (∀ rnd : List Nat,
      (generateRandomString 32 rnd).length = 44 ∧
      (∀ c ∈ (generateRandomString 32 rnd).data.take 43, isURLSafeChar c = true) ∧
      (generateRandomString 32 rnd).data.drop 43 = ['=']) ∧
    (∀ rnd : List Nat, rnd.length = 32 → (∀ x ∈ rnd, x < 256) →
      generateRandomString 32 rnd = EncodeToString rnd) ∧
    (∀ rnd1 rnd2 : List Nat, rnd1.length = 32 → rnd2.length = 32 →
      (∀ x ∈ rnd1, x < 256) → (∀ x ∈ rnd2, x < 256) →
      generateRandomString 32 rnd1 = generateRandomString 32 rnd2 → rnd1 = rnd2) ∧
    generateRandomString 32 draw1 = "AAECAwQFBgcICQoLDA0ODxAREhMUFRYXGBkaGxwdHh8=" := by
  refine ⟨?_, ?_, ?_, by decide⟩
  · intro rnd
    obtain ⟨cs, hcs, hlen, hsafe⟩ :=
      base64Encode_shape 10 (randomBytes 32 rnd) (randomBytes_length 32 rnd)
    have hlen43 : cs.length = 43 := hlen
    rw [generateRandomString_eq, hcs]
    refine ⟨?_, ?_, ?_⟩
    · show (cs ++ ['=']).length = 44
      rw [List.length_append, hlen43]
      rfl
    · intro c hc
      have htake : (cs ++ ['=']).take 43 = cs := by
        rw [← hlen43]
        exact List.take_left' rfl
      have hc2 : c ∈ (cs ++ ['=']).take 43 := hc
      rw [htake] at hc2
      exact hsafe c hc2
    · show (cs ++ ['=']).drop 43 = ['=']
      rw [← hlen43]
      exact List.drop_left' rfl
  · intro rnd hlen hlt
    rw [generateRandomString_eq, randomBytes_of_bytes 32 rnd hlen hlt]
    rfl
  · intro rnd1 rnd2 hl1 hl2 hb1 hb2 h
    rw [generateRandomString_eq, generateRandomString_eq,
      randomBytes_of_bytes 32 rnd1 hl1 hb1, randomBytes_of_bytes 32 rnd2 hl2 hb2] at h
    injection h with h
    exact base64Encode_inj 10 rnd1 rnd2 hl1 hl2 hb1 hb2 h
